import Mathlib

/-!
A shallow embedding of the core of a BitTorrent client written in Rust
(sources: `src/tfile.rs`, `src/peer.rs`, `src/main.rs`).

Conventions used throughout:

* Machine integers (`usize`, `u32`, `i64`) are modelled as `Nat`/`Int` with
  explicit `% 2^64`, `% 2^32` and signed-range checks exactly where the Rust
  code can overflow or wrap (release-mode wrapping semantics).
* Byte buffers and socket streams are `List Nat`, each element one byte.
* A Rust `panic!` or `.unwrap()` failure is modelled as `Except.error`
  (with an error constructor mirroring the panic site) or as `Option.none`.
  An error result therefore means the process dies at that point: nothing
  further is sent or written.
* `peer.rs`/`tfile.rs` hold the current engine the specification describes;
  `main.rs` additionally holds the bencode decoder `decode_bencoded_value`
  (and a superseded older copy of the connection code, not embedded).
-/

set_option maxRecDepth 1000000

/-- Width of `usize` (the build targets a 64-bit machine). -/
def USIZE : Nat := 2 ^ 64

/-- Width of `u32`. -/
def U32 : Nat := 2 ^ 32

/-- `const BLOCK_SIZE: u32 = 1 << 14` from `src/peer.rs`. -/
def BLOCK_SIZE : Nat := 2 ^ 14

/-- Embedding of `struct TorrentFileInfo` from `src/tfile.rs`:
`length: usize`, `name: String` (kept as raw bytes), `plength: usize`
(serde-renamed "piece length"), `pieces_data: Vec<u8>`. -/
structure TorrentFileInfo where
  length : Nat
  name : List Nat
  plength : Nat
  pieces_data : List Nat
deriving Repr, DecidableEq

/-- Embedding of `TorrentFileInfo::n_pieces`: `self.pieces_data.len() / 20`
(integer, i.e. flooring, division). -/
def TorrentFileInfo.n_pieces (info : TorrentFileInfo) : Nat :=
  info.pieces_data.length / 20

/-- Rust release-mode `usize` subtraction of 1: `n - 1` wraps modulo `2^64`
when `n = 0`.  Used by `nth_plength` for the expression `n_pieces - 1`. -/
def usizeSub1 (n : Nat) : Nat :=
  (n + (USIZE - 1)) % USIZE

/-- Embedding of `TorrentFileInfo::nth_plength` (`src/tfile.rs` lines 78-87):
`if n < n_pieces - 1 { plength } else if n == n_pieces - 1 { length % plength }
else { 0 }`.  The subtraction `n_pieces - 1` wraps modulo `2^64` (release
build).  Rust `%` on `usize` panics when `plength = 0`, where Lean's
`Nat.mod` instead returns `length`; theorems touching the middle branch
therefore assume `0 < plength`, on which the two semantics agree. -/
def TorrentFileInfo.nth_plength (info : TorrentFileInfo) (n : Nat) : Nat :=
  if n < usizeSub1 info.n_pieces then info.plength
  else if n = usizeSub1 info.n_pieces then info.length % info.plength
  else 0

/-- `slice::chunks(20)` produces exactly `⌈len/20⌉` consecutive chunks, the
last possibly shorter than 20; the recursion is driven by that exact count
so that an empty buffer yields no chunks, as in Rust. -/
def chunksOf20Go : Nat → List Nat → List (List Nat)
  | 0, _ => []
  | n + 1, l => l.take 20 :: chunksOf20Go n (l.drop 20)

/-- `self.pieces_data.chunks(20)` as a list of chunks. -/
def chunksOf20 (l : List Nat) : List (List Nat) :=
  chunksOf20Go ((l.length + 19) / 20) l

/-- Embedding of `TorrentFileInfo::pieces` from `src/tfile.rs`. -/
def TorrentFileInfo.pieces (info : TorrentFileInfo) : List (List Nat) :=
  chunksOf20 info.pieces_data

/-- Embedding of `struct TorrentFile` from `src/tfile.rs`: the announce URL
(a `String`, kept as raw bytes) plus the info sub-structure. -/
structure TorrentFile where
  announce : List Nat
  info : TorrentFileInfo
deriving Repr, DecidableEq

/-! ## Bencode values as parsed by the `serde_bencode` dependency

`TorrentFile::from_file` (`src/tfile.rs` lines 17-21) is
`serde_bencode::from_bytes(&bytes).unwrap()` — a bencode parse followed by
serde field extraction, with no further validation in the repository's own
code.  The functions below model that library pipeline for the
`TorrentFile` shape: a fuel-driven bencode reader (fuel `2·len + 2` bounds
the recursion depth, which grows by at most two frames per consumed byte)
and a field extractor.  UTF-8 validation of the two `String` fields is not
modelled; theorems that rely on this parser only use ASCII inputs, on which
the model and the library agree. -/

inductive BValue where
  | int (i : Int)
  | str (s : List Nat)
  | list (l : List BValue)
  | dict (d : List (List Nat × BValue))

/-- Split a byte list into its longest leading run of ASCII digits and the
remainder. -/
def bsplitDigits : List Nat → List Nat × List Nat
  | [] => ([], [])
  | b :: bs =>
    if 48 ≤ b ∧ b ≤ 57 then ((b :: (bsplitDigits bs).1), (bsplitDigits bs).2)
    else ([], b :: bs)

/-- Decimal value of a list of ASCII digit bytes. -/
def bdigitsVal (l : List Nat) : Nat :=
  l.foldl (fun a b => a * 10 + (b - 48)) 0

mutual

/-- One bencode value: `i<digits>e` (an `i64`, range-checked), `<len>:<bytes>`,
`l...e`, `d...e`.  Returns the value and the unconsumed remainder. -/
def bdecode_fuel : Nat → List Nat → Option (BValue × List Nat)
  | 0, _ => none
  | _ + 1, [] => none
  | fuel + 1, b :: bs =>
    if b = 105 then
      match bs with
      | 45 :: rest =>
        if (bsplitDigits rest).1 ≠ [] ∧ bdigitsVal (bsplitDigits rest).1 ≤ 2 ^ 63 then
          match (bsplitDigits rest).2 with
          | 101 :: r2 => some (.int (-(bdigitsVal (bsplitDigits rest).1 : Int)), r2)
          | _ => none
        else none
      | _ =>
        if (bsplitDigits bs).1 ≠ [] ∧ bdigitsVal (bsplitDigits bs).1 ≤ 2 ^ 63 - 1 then
          match (bsplitDigits bs).2 with
          | 101 :: r2 => some (.int (bdigitsVal (bsplitDigits bs).1), r2)
          | _ => none
        else none
    else if 48 ≤ b ∧ b ≤ 57 then
      match (bsplitDigits (b :: bs)).2 with
      | 58 :: r2 =>
        if bdigitsVal (bsplitDigits (b :: bs)).1 ≤ r2.length then
          some (.str (r2.take (bdigitsVal (bsplitDigits (b :: bs)).1)),
            r2.drop (bdigitsVal (bsplitDigits (b :: bs)).1))
        else none
      | _ => none
    else if b = 108 then bdecode_list_fuel fuel bs []
    else if b = 100 then bdecode_dict_fuel fuel bs []
    else none

/-- Bencode list items until the closing `e`. -/
def bdecode_list_fuel : Nat → List Nat → List BValue → Option (BValue × List Nat)
  | 0, _, _ => none
  | _ + 1, [], _ => none
  | fuel + 1, b :: bs, acc =>
    if b = 101 then some (.list acc, bs)
    else
      match bdecode_fuel fuel (b :: bs) with
      | none => none
      | some (v, rest) => bdecode_list_fuel fuel rest (acc ++ [v])

/-- Bencode dictionary pairs until the closing `e`; a non-string key is a
parse error. -/
def bdecode_dict_fuel : Nat → List Nat → List (List Nat × BValue) →
    Option (BValue × List Nat)
  | 0, _, _ => none
  | _ + 1, [], _ => none
  | fuel + 1, b :: bs, acc =>
    if b = 101 then some (.dict acc, bs)
    else
      match bdecode_fuel fuel (b :: bs) with
      | none => none
      | some (k, rest) =>
        match k with
        | .str key =>
          match bdecode_fuel fuel rest with
          | none => none
          | some (v, rest2) => bdecode_dict_fuel fuel rest2 (acc ++ [(key, v)])
        | _ => none

end

/-- ASCII bytes of a string literal. -/
def strBytes (s : String) : List Nat :=
  s.toList.map Char.toNat

/-- First-match lookup in a decoded dictionary, as serde does by field name. -/
def blookup : List (List Nat × BValue) → List Nat → Option BValue
  | [], _ => none
  | (k, v) :: rest, key => if k = key then some v else blookup rest key

/-- Deserializing a `usize` field from a bencode integer: negative values or
values not representable in 64 bits are an error. -/
def asUsize (v : BValue) : Option Nat :=
  match v with
  | .int i => if 0 ≤ i ∧ i < 2 ^ 64 then some i.toNat else none
  | _ => none

/-- Serde-derive extraction for the `TorrentFile` shape: a dictionary with
`announce` (string) and `info` (dictionary with `length`, `name`,
`piece length`, `pieces`).  Unknown keys are ignored, order is irrelevant,
and — the point at issue in the digest-length claim — the length of the
`pieces` byte string is accepted unconditionally. -/
def extract_torrent_file (v : BValue) : Option TorrentFile :=
  match v with
  | .dict d =>
    match blookup d (strBytes "announce"), blookup d (strBytes "info") with
    | some (.str ann), some (.dict di) =>
      match blookup di (strBytes "length"), blookup di (strBytes "name"),
          blookup di (strBytes "piece length"), blookup di (strBytes "pieces") with
      | some lv, some (.str nm), some pv, some (.str pd) =>
        match asUsize lv, asUsize pv with
        | some len, some plen => some ⟨ann, ⟨len, nm, plen, pd⟩⟩
        | _, _ => none
      | _, _, _, _ => none
    | _, _ => none
  | _ => none

/-- Embedding of `TorrentFile::from_file` (`src/tfile.rs` lines 17-21) on the
already-read bytes: `serde_bencode::from_bytes::<TorrentFile>(&bytes)`.
There is no validation beyond the parse and typed field extraction. -/
def parse_torrent_file (bytes : List Nat) : Option TorrentFile :=
  match bdecode_fuel (2 * bytes.length + 2) bytes with
  | none => none
  | some (v, _) => extract_torrent_file v

/-- Modelled from the spec: `piece count = ceil(total_length / piece_length)`
(§4.2) — the piece count the specification says parsing validates the
digest buffer against.  The code has no counterpart of this definition. -/
def spec_piece_count (len plen : Nat) : Nat :=
  (len + plen - 1) / plen

/-- A concrete syntactically valid metainfo blob whose `pieces` field is 20
bytes long although `length = 100`, `piece length = 10` would require
`ceil(100/10) * 20 = 200` digest bytes. -/
def cexBlob : List Nat :=
  strBytes "d8:announce3:url4:infod6:lengthi100e4:name1:f12:piece lengthi10e6:pieces20:aaaaaaaaaaaaaaaaaaaaee"

/-- The descriptor `cexBlob` parses to. -/
def cexFile : TorrentFile :=
  ⟨strBytes "url", ⟨100, strBytes "f", 10, List.replicate 20 97⟩⟩

/-! ## The hand-written bencode decoder of `src/main.rs`

`decode_bencoded_value` (`src/main.rs` lines 343-400) decodes one bencode
value from a `&str`, returning the decoded `serde_json::Value` together with
the number of bytes consumed.  It is embedded below over `List Char` (the
inputs of interest are ASCII, where Rust's byte indexing coincides with
character counting).  The recursion is fuel-driven with fuel `2·len + 2`,
which bounds the recursion depth (at most two frames per consumed
character); every `panic!`, failed `unwrap` or out-of-bounds slice is
`none`. -/

inductive JValue where
  | str (s : List Char)
  | int (n : Int)
  | arr (l : List JValue)
  | obj (m : List (List Char × JValue))

/-- `str::find`: index of the first occurrence of a character. -/
def findCharIdx (c : Char) : List Char → Option Nat
  | [] => none
  | x :: xs => if x = c then some 0 else (findCharIdx c xs).map (· + 1)

/-- Decimal value of a list of ASCII digit characters. -/
def digitsToNat (l : List Char) : Nat :=
  l.foldl (fun acc c => acc * 10 + (c.toNat - 48)) 0

/-- `str::parse::<i64>` on an unsigned digit string: fails on an empty
string, a non-digit character, or overflow past `2^63 - 1`. -/
def parseI64digits (l : List Char) : Option Nat :=
  if l ≠ [] ∧ l.all Char.isDigit ∧ digitsToNat l ≤ 2 ^ 63 - 1 then some (digitsToNat l)
  else none

/-- `str::parse::<i64>`, including the optional leading minus sign. -/
def parseI64 (l : List Char) : Option Int :=
  match l with
  | '-' :: rest =>
    if rest ≠ [] ∧ rest.all Char.isDigit ∧ digitsToNat rest ≤ 2 ^ 63 then
      some (-(digitsToNat rest : Int))
    else none
  | _ => (parseI64digits l).map Int.ofNat

/-- Lexicographic byte order on keys, the order `serde_json::Map`
(a `BTreeMap`) keeps its entries in. -/
def keyLt : List Char → List Char → Bool
  | [], [] => false
  | [], _ :: _ => true
  | _ :: _, [] => false
  | a :: as_, b :: bs =>
    if a.toNat < b.toNat then true
    else if a.toNat = b.toNat then keyLt as_ bs
    else false

/-- `serde_json::Map::insert`: ordered insert, replacing an equal key. -/
def mapInsert (k : List Char) (v : JValue) :
    List (List Char × JValue) → List (List Char × JValue)
  | [] => [(k, v)]
  | (k0, v0) :: rest =>
    if keyLt k k0 then (k, v) :: (k0, v0) :: rest
    else if k = k0 then (k, v) :: rest
    else (k0, v0) :: mapInsert k v rest

mutual

/-- Embedding of `decode_bencoded_value` (`src/main.rs` lines 343-400),
returning `(bytes consumed, value)`:
a digit starts `<len>:<bytes>` (length parsed with `parse::<i64>` up to the
first `:`, slice bounds checked), `i` starts an integer terminated by the
first `e` anywhere in the remainder, `l`/`d` start list/dictionary loops,
anything else panics. -/
def decode_bencoded_fuel : Nat → List Char → Option (Nat × JValue)
  | 0, _ => none
  | _ + 1, [] => none
  | fuel + 1, c :: cs =>
    if c.isDigit then
      match findCharIdx ':' (c :: cs) with
      | none => none
      | some colon =>
        match parseI64 ((c :: cs).take colon) with
        | none => none
        | some n =>
          if colon + 1 + n.toNat ≤ (c :: cs).length then
            some (colon + 1 + n.toNat, .str (((c :: cs).drop (colon + 1)).take n.toNat))
          else none
    else if c = 'i' then
      match findCharIdx 'e' (c :: cs) with
      | none => none
      | some ei =>
        match parseI64 (((c :: cs).drop 1).take (ei - 1)) with
        | none => none
        | some v => some (ei + 1, .int v)
    else if c = 'l' then decode_list_fuel fuel cs 1 []
    else if c = 'd' then decode_dict_fuel fuel cs 1 []
    else none

/-- The list loop of `decode_bencoded_value`: decode items, advancing by each
item's consumed length, until the closing `e`. -/
def decode_list_fuel : Nat → List Char → Nat → List JValue → Option (Nat × JValue)
  | 0, _, _, _ => none
  | _ + 1, [], _, _ => none
  | fuel + 1, c :: cs, len, items =>
    if c = 'e' then some (len + 1, .arr items)
    else
      match decode_bencoded_fuel fuel (c :: cs) with
      | none => none
      | some (l, v) => decode_list_fuel fuel ((c :: cs).drop l) (len + l) (items ++ [v])

/-- The dictionary loop of `decode_bencoded_value`: decode a key (which must
be a string, else `panic!("Expected string key")`), then a value, until the
closing `e`. -/
def decode_dict_fuel : Nat → List Char → Nat → List (List Char × JValue) →
    Option (Nat × JValue)
  | 0, _, _, _ => none
  | _ + 1, [], _, _ => none
  | fuel + 1, c :: cs, len, dict =>
    if c = 'e' then some (len + 1, .obj dict)
    else
      match decode_bencoded_fuel fuel (c :: cs) with
      | none => none
      | some (lk, kv) =>
        match kv with
        | .str key =>
          match decode_bencoded_fuel fuel ((c :: cs).drop lk) with
          | none => none
          | some (lv, v) =>
            decode_dict_fuel fuel (((c :: cs).drop lk).drop lv) (len + lk + lv)
              (mapInsert key v dict)
        | _ => none

end

/-- `decode_bencoded_value` at adequate fuel. -/
def decode_bencoded_value (s : List Char) : Option (Nat × JValue) :=
  decode_bencoded_fuel (2 * s.length + 2) s

/-! ## The peer wire message layer of `src/peer.rs` -/

/-- `u32::from_be_bytes` on four byte values. -/
def u32be (b0 b1 b2 b3 : Nat) : Nat :=
  b0 * 2 ^ 24 + b1 * 2 ^ 16 + b2 * 2 ^ 8 + b3

/-- `PeerConnection::u32_from_bytes` (`src/peer.rs` lines 213-215): big-endian
`u32` from the first four bytes of a buffer (callers guarantee the length). -/
def u32beL (l : List Nat) : Nat :=
  u32be (l.getD 0 0) (l.getD 1 0) (l.getD 2 0) (l.getD 3 0)

/-- Embedding of `enum PeerMessage` from `src/peer.rs`, payloads inlined. -/
inductive PeerMessage where
  | bitfield
  | interested
  | unchoke
  | request (index begin_ length : Nat)
  | piece (index begin_ : Nat) (block : List Nat)
deriving Repr, DecidableEq

/-- One constructor per distinct panic site of the connection code:
`eof` for a failed `read_exact`, `badPayload` for an out-of-bounds payload
slice, `notBitfield` / `notUnchoke` / `notPiece` for the three
"Didn't receive the … message" panics, `noSuchPiece` for
`pieces().nth(index).unwrap()` on `None`, `hashMismatch` for the
"Hash mismatch" panics. -/
inductive PeerErr where
  | eof
  | badPayload
  | notBitfield
  | notUnchoke
  | notPiece
  | noSuchPiece
  | hashMismatch
deriving Repr, DecidableEq

/-- Embedding of `PeerConnection::receive_message` (`src/peer.rs` lines
69-116) over a byte stream, returning the surfaced message and the
unconsumed remainder of the stream.  Reads a 4-byte big-endian length; a
zero length is a keepalive and the read is retried; otherwise one id byte
and `length - 1` payload bytes follow.  Ids 5/2/1/6/7 surface as messages
(the `Request`/`Piece` payload field reads panic — `badPayload` — when the
payload is shorter than the fields demand, 12 and 8 bytes respectively);
any other id is discarded and the read retried.  The Rust local
`length` is inlined as `u32be b0 b1 b2 b3`, and its match on the id byte is
rendered as the equivalent chain of equality tests. -/
def receive_message : List Nat → Except PeerErr (PeerMessage × List Nat)
  | b0 :: b1 :: b2 :: b3 :: rest =>
    if u32be b0 b1 b2 b3 = 0 then
      receive_message rest
    else
      match rest with
      | id :: rest2 =>
        if u32be b0 b1 b2 b3 - 1 ≤ rest2.length then
          if id = 5 then .ok (.bitfield, rest2.drop (u32be b0 b1 b2 b3 - 1))
          else if id = 2 then .ok (.interested, rest2.drop (u32be b0 b1 b2 b3 - 1))
          else if id = 1 then .ok (.unchoke, rest2.drop (u32be b0 b1 b2 b3 - 1))
          else if id = 6 then
            if 12 ≤ (rest2.take (u32be b0 b1 b2 b3 - 1)).length then
              .ok (.request (u32beL (rest2.take (u32be b0 b1 b2 b3 - 1)))
                (u32beL ((rest2.take (u32be b0 b1 b2 b3 - 1)).drop 4))
                (u32beL ((rest2.take (u32be b0 b1 b2 b3 - 1)).drop 8)),
                rest2.drop (u32be b0 b1 b2 b3 - 1))
            else .error .badPayload
          else if id = 7 then
            if 8 ≤ (rest2.take (u32be b0 b1 b2 b3 - 1)).length then
              .ok (.piece (u32beL (rest2.take (u32be b0 b1 b2 b3 - 1)))
                (u32beL ((rest2.take (u32be b0 b1 b2 b3 - 1)).drop 4))
                ((rest2.take (u32be b0 b1 b2 b3 - 1)).drop 8),
                rest2.drop (u32be b0 b1 b2 b3 - 1))
            else .error .badPayload
          else receive_message (rest2.drop (u32be b0 b1 b2 b3 - 1))
        else .error .eof
      | [] => .error .eof
  | _ => .error .eof
termination_by s => s.length
decreasing_by
  all_goals simp_all [List.length_drop]
  all_goals omega

set_option maxHeartbeats 1000000 in
/-- A successfully surfaced message strictly consumes stream bytes (at least
the 4-byte header); this justifies termination of the download loop below. -/
theorem receive_message_ok_length :
    ∀ (s : List Nat) (r : PeerMessage × List Nat),
      receive_message s = .ok r → r.2.length < s.length := by
  intro s
  induction s using receive_message.induct with
  | case1 b0 b1 b2 b3 rest h ih =>
    intro r hr
    rw [receive_message.eq_def] at hr
    simp [h] at hr
    have := ih r hr
    simp only [List.length_cons]
    omega
  | case2 b0 b1 b2 b3 h rest2 hle =>
    intro r hr
    rw [receive_message.eq_def] at hr
    simp [h, hle] at hr
    subst hr
    simp only [List.length_drop, List.length_cons]
    omega
  | case3 b0 b1 b2 b3 h rest2 hle =>
    intro r hr
    rw [receive_message.eq_def] at hr
    simp [h, hle] at hr
    subst hr
    simp only [List.length_drop, List.length_cons]
    omega
  | case4 b0 b1 b2 b3 h rest2 hle =>
    intro r hr
    rw [receive_message.eq_def] at hr
    simp [h, hle] at hr
    subst hr
    simp only [List.length_drop, List.length_cons]
    omega
  | case5 b0 b1 b2 b3 h rest2 hle h12 =>
    intro r hr
    have hx : 12 ≤ u32be b0 b1 b2 b3 - 1 := by
      simp [List.length_take] at h12
      omega
    rw [receive_message.eq_def] at hr
    simp [h, hle, hx] at hr
    subst hr
    simp only [List.length_drop, List.length_cons]
    omega
  | case6 b0 b1 b2 b3 h rest2 hle h12 =>
    intro r hr
    have hx : ¬ 12 ≤ u32be b0 b1 b2 b3 - 1 := by
      simp [List.length_take] at h12
      omega
    rw [receive_message.eq_def] at hr
    simp [h, hle, hx] at hr
  | case7 b0 b1 b2 b3 h rest2 hle h8 =>
    intro r hr
    have hx : 8 ≤ u32be b0 b1 b2 b3 - 1 := by
      simp [List.length_take] at h8
      omega
    rw [receive_message.eq_def] at hr
    simp [h, hle, hx] at hr
    subst hr
    simp only [List.length_drop, List.length_cons]
    omega
  | case8 b0 b1 b2 b3 h rest2 hle h8 =>
    intro r hr
    have hx : ¬ 8 ≤ u32be b0 b1 b2 b3 - 1 := by
      simp [List.length_take] at h8
      omega
    rw [receive_message.eq_def] at hr
    simp [h, hle, hx] at hr
  | case9 b0 b1 b2 b3 h id rest2 hle h5 h2 h1 h6 h7 ih =>
    intro r hr
    rw [receive_message.eq_def] at hr
    simp [h, hle, h5, h2, h1, h6, h7] at hr
    have := ih r hr
    simp only [List.length_drop] at this
    simp only [List.length_cons]
    omega
  | case10 b0 b1 b2 b3 h id rest2 hnle =>
    intro r hr
    rw [receive_message.eq_def] at hr
    simp [h, hnle] at hr
  | case11 b0 b1 b2 b3 h =>
    intro r hr
    rw [receive_message.eq_def] at hr
    simp [h] at hr
  | case12 x hshape =>
    intro r hr
    rcases x with _ | ⟨a, _ | ⟨b, _ | ⟨c, _ | ⟨d, rest⟩⟩⟩⟩
    · rw [receive_message.eq_def] at hr
      simp at hr
    · rw [receive_message.eq_def] at hr
      simp at hr
    · rw [receive_message.eq_def] at hr
      simp at hr
    · rw [receive_message.eq_def] at hr
      simp at hr
    · exact (hshape a b c d rest rfl).elim

/-! ## SHA-1 (the `sha1` crate used by `download_piece` and `hash`) -/

/-- 32-bit left rotation (inputs below `2^32`). -/
def rotl32 (x k : Nat) : Nat :=
  ((x <<< k) % U32) ||| (x >>> (32 - k))

/-- Big-endian bytes of a 32-bit word. -/
def wordToBytes (w : Nat) : List Nat :=
  [w / 2 ^ 24 % 256, w / 2 ^ 16 % 256, w / 2 ^ 8 % 256, w % 256]

/-- SHA-1 padding: `0x80`, zeros to 56 mod 64, then the 64-bit big-endian
bit length. -/
def sha1Pad (msg : List Nat) : List Nat :=
  msg ++ 128 :: List.replicate ((64 + 56 - (msg.length + 1) % 64) % 64) 0 ++
    [8 * msg.length / 2 ^ 56 % 256, 8 * msg.length / 2 ^ 48 % 256,
     8 * msg.length / 2 ^ 40 % 256, 8 * msg.length / 2 ^ 32 % 256,
     8 * msg.length / 2 ^ 24 % 256, 8 * msg.length / 2 ^ 16 % 256,
     8 * msg.length / 2 ^ 8 % 256, 8 * msg.length % 256]

/-- Split a padded message (whose length is a multiple of 64) into its
64-byte blocks; the recursion is driven by the exact block count. -/
def toBlocksGo : Nat → List Nat → List (List Nat)
  | 0, _ => []
  | n + 1, l => l.take 64 :: toBlocksGo n (l.drop 64)

/-- All 64-byte blocks of a padded message. -/
def toBlocks (l : List Nat) : List (List Nat) :=
  toBlocksGo (l.length / 64) l

/-- The sixteen 32-bit big-endian words of one 64-byte block. -/
def blockWords (chunk : List Nat) : List Nat :=
  (List.range 16).map fun i =>
    u32be (chunk.getD (4 * i) 0) (chunk.getD (4 * i + 1) 0)
      (chunk.getD (4 * i + 2) 0) (chunk.getD (4 * i + 3) 0)

/-- Extend sixteen words to eighty:
`w[t] = rotl1 (w[t-3] xor w[t-8] xor w[t-14] xor w[t-16])`. -/
def sha1Expand (ws : List Nat) : List Nat :=
  (List.range 64).foldl
    (fun acc i =>
      acc ++ [rotl32 ((acc.getD (i + 13) 0) ^^^ (acc.getD (i + 8) 0) ^^^
        (acc.getD (i + 2) 0) ^^^ (acc.getD i 0)) 1])
    ws

/-- The round function: choose / parity / majority / parity by round index. -/
def sha1F (t b c d : Nat) : Nat :=
  if t < 20 then (b &&& c) ||| ((b ^^^ (U32 - 1)) &&& d)
  else if t < 40 then b ^^^ c ^^^ d
  else if t < 60 then (b &&& c) ||| (b &&& d) ||| (c &&& d)
  else b ^^^ c ^^^ d

/-- The round constants. -/
def sha1K (t : Nat) : Nat :=
  if t < 20 then 0x5A827999
  else if t < 40 then 0x6ED9EBA1
  else if t < 60 then 0x8F1BBCDC
  else 0xCA62C1D6

/-- One of the eighty rounds on the state `(a, b, c, d, e)`. -/
def sha1Round (w : List Nat) (st : Nat × Nat × Nat × Nat × Nat) (t : Nat) :
    Nat × Nat × Nat × Nat × Nat :=
  ((rotl32 st.1 5 + sha1F t st.2.1 st.2.2.1 st.2.2.2.1 + st.2.2.2.2 +
      sha1K t + w.getD t 0) % U32,
    st.1, rotl32 st.2.1 30, st.2.2.1, st.2.2.2.1)

/-- Process one 64-byte block into the running hash state. -/
def sha1Block (h : Nat × Nat × Nat × Nat × Nat) (chunk : List Nat) :
    Nat × Nat × Nat × Nat × Nat :=
  let r := (List.range 80).foldl (sha1Round (sha1Expand (blockWords chunk))) h
  ((h.1 + r.1) % U32, (h.2.1 + r.2.1) % U32, (h.2.2.1 + r.2.2.1) % U32,
    (h.2.2.2.1 + r.2.2.2.1) % U32, (h.2.2.2.2 + r.2.2.2.2) % U32)

/-- The 20-byte SHA-1 digest of a byte message (checked against the standard
test vectors for the empty message and `"abc"` during development). -/
def sha1Bytes (msg : List Nat) : List Nat :=
  let r := (toBlocks (sha1Pad msg)).foldl sha1Block
    (0x67452301, 0xEFCDAB89, 0x98BADCFE, 0x10325476, 0xC3D2E1F0)
  wordToBytes r.1 ++ wordToBytes r.2.1 ++ wordToBytes r.2.2.1 ++
    wordToBytes r.2.2.2.1 ++ wordToBytes r.2.2.2.2

/-! ## The piece-download state machine of `src/peer.rs`

`PeerConnection::download_piece` (`src/peer.rs` lines 141-211) is embedded
as a function of the descriptor, the connection's `initiated` flag, the
piece index (already cast from `u32` to `usize`) and the incoming byte
stream.  A successful run returns the messages sent (`Interested` and the
block `Request`s, in order), the bytes written to the output sink, the
resulting `initiated` flag, and the unconsumed stream; an error result is a
panic, at which nothing (more) is observable — in particular no bytes are
ever written to the sink on an error.  The sequential Rust statements are
staged into the helper functions below; each helper matches only on values
passed to it, never on a recursive call, so that all of them unfold
mechanically. -/

/-- The block length requested at offset `beginPos`:
`if begin + BLOCK_SIZE < plength { BLOCK_SIZE } else { plength - begin }`,
with the wrapping `u32` addition made explicit. -/
def reqLen (plength beginPos : Nat) : Nat :=
  if (beginPos + BLOCK_SIZE) % U32 < plength then BLOCK_SIZE
  else plength - beginPos

/-- The `while begin < plength` request/receive loop of `download_piece`
(`src/peer.rs` lines 165-188).  Arguments after `plength`: current offset,
requests sent so far, assembled `piece_data`, the stream.  Each iteration
sends `Request(index, begin, reqLen)`, then blocks until `receive_message`
surfaces a message, which must be a `Piece` (anything else panics:
`notPiece`); the received block is appended whole to `piece_data` (its
index/begin fields are ignored, as in the source) and `begin` advances by
the requested length with wrapping `u32` addition.  Returns the final
offset, the requests, the assembled buffer and the remaining stream. -/
def download_blocks (index plength beginPos : Nat) (sent : List PeerMessage)
    (pieceData s : List Nat) :
    Except PeerErr (Nat × List PeerMessage × List Nat × List Nat) :=
  if beginPos < plength then
    match hm : receive_message s with
    | .error e => .error e
    | .ok (.piece _ _ block, s2) =>
        download_blocks index plength ((beginPos + reqLen plength beginPos) % U32)
          (sent ++ [.request index beginPos (reqLen plength beginPos)])
          (pieceData ++ block) s2
    | .ok (_, _) => .error .notPiece
  else .ok (beginPos, sent, pieceData, s)
termination_by s.length
decreasing_by
  exact receive_message_ok_length s _ hm

/-- The loop exits returning its accumulated state once the offset reaches
the piece length. -/
theorem download_blocks_done (index plength beginPos : Nat) (sent : List PeerMessage)
    (pieceData s : List Nat) (h : ¬ beginPos < plength) :
    download_blocks index plength beginPos sent pieceData s
      = .ok (beginPos, sent, pieceData, s) := by
  unfold download_blocks
  rw [if_neg h]

/-- A receive failure inside the loop aborts the download with that error. -/
theorem download_blocks_step_err (index plength beginPos : Nat) (sent : List PeerMessage)
    (pieceData s : List Nat) (e : PeerErr) (h : beginPos < plength)
    (hm : receive_message s = .error e) :
    download_blocks index plength beginPos sent pieceData s = .error e := by
  conv_lhs => rw [download_blocks.eq_def]
  rw [if_pos h]
  split <;> simp_all

/-- One loop iteration: a surfaced `Piece` message appends its block and
advances the offset by the requested length. -/
theorem download_blocks_step_piece (index plength beginPos : Nat) (sent : List PeerMessage)
    (pieceData s : List Nat) (a b : Nat) (block s2 : List Nat) (h : beginPos < plength)
    (hm : receive_message s = .ok (.piece a b block, s2)) :
    download_blocks index plength beginPos sent pieceData s
      = download_blocks index plength ((beginPos + reqLen plength beginPos) % U32)
          (sent ++ [.request index beginPos (reqLen plength beginPos)])
          (pieceData ++ block) s2 := by
  conv_lhs => rw [download_blocks.eq_def]
  rw [if_pos h]
  split <;> simp_all

/-- A surfaced non-`Piece` message inside the loop is the fatal `notPiece`
error. -/
theorem download_blocks_step_other (index plength beginPos : Nat) (sent : List PeerMessage)
    (pieceData s : List Nat) (m : PeerMessage) (s2 : List Nat) (h : beginPos < plength)
    (hm : receive_message s = .ok (m, s2))
    (hnp : ∀ a b block, m ≠ .piece a b block) :
    download_blocks index plength beginPos sent pieceData s = .error .notPiece := by
  conv_lhs => rw [download_blocks.eq_def]
  rw [if_pos h]
  split <;> simp_all
  rename_i a2 b2 block2 s22 heq
  exact absurd hm.1.symm (hnp a2 b2 block2)

/-- The statements of `download_piece` after the block loop (`src/peer.rs`
lines 190-210), as a function of the loop's outcome: if the final offset is
`0` the call returns having written nothing; otherwise the SHA-1 digest of
the assembled buffer is compared against `pieces().nth(index)` (an absent
chunk panics: `noSuchPiece`): on equality the buffer is written to the
sink, on any difference the call panics with `hashMismatch`.  The source
compares the two digests length-first and then byte by byte, which for the
always-20-byte `sha1Bytes` output is exactly list equality. -/
def dp_body_post (info : TorrentFileInfo) (index : Nat)
    (r : Except PeerErr (Nat × List PeerMessage × List Nat × List Nat)) :
    Except PeerErr (List PeerMessage × List Nat × List Nat) :=
  match r with
  | .error e => .error e
  | .ok (bf, sent, pieceData, s2) =>
    if bf = 0 then .ok (sent, [], s2)
    else
      match (info.pieces).get? index with
      | none => .error .noSuchPiece
      | some expected =>
        if sha1Bytes pieceData = expected then .ok (sent, pieceData, s2)
        else .error .hashMismatch

/-- The post-exchange part of `download_piece`: compute the piece length
(`nth_plength` truncated by the `as u32` cast), run the block loop from
offset 0, then verify and write. -/
def download_piece_body (info : TorrentFileInfo) (index : Nat) (s : List Nat) :
    Except PeerErr (List PeerMessage × List Nat × List Nat) :=
  dp_body_post info index
    (download_blocks index (info.nth_plength index % U32) 0 [] [] s)

/-- The second half of the ready exchange (`src/peer.rs` lines 152-154), as a
function of the second `receive_message` outcome: the message must be
`Unchoke` (else panic `notUnchoke`); then the body runs with `initiated`
set, and the `Interested` sent between the two receives is prepended to
the sent messages. -/
def dp_step2 (info : TorrentFileInfo) (index : Nat)
    (r : Except PeerErr (PeerMessage × List Nat)) :
    Except PeerErr (List PeerMessage × List Nat × Bool × List Nat) :=
  match r with
  | .error e => .error e
  | .ok (.unchoke, s2) =>
    Except.map (fun x => (PeerMessage.interested :: x.1, x.2.1, true, x.2.2))
      (download_piece_body info index s2)
  | .ok (_, _) => .error .notUnchoke

/-- The first half of the ready exchange (`src/peer.rs` lines 145-151), as a
function of the first `receive_message` outcome: the message must be
`Bitfield` (else panic `notBitfield`); then `Interested` is sent and the
exchange continues with the next received message. -/
def dp_step1 (info : TorrentFileInfo) (index : Nat)
    (r : Except PeerErr (PeerMessage × List Nat)) :
    Except PeerErr (List PeerMessage × List Nat × Bool × List Nat) :=
  match r with
  | .error e => .error e
  | .ok (.bitfield, s1) => dp_step2 info index (receive_message s1)
  | .ok (_, _) => .error .notBitfield

/-- Embedding of `PeerConnection::download_piece` (`src/peer.rs` lines
141-211).  With `initiated` already set the ready exchange is skipped
entirely and the body runs directly (the flag stays set); on a fresh
connection the Bitfield/Interested/Unchoke exchange runs first and sets the
flag.  Result on success: `(messages sent, bytes written to the sink,
final initiated flag, unconsumed stream)`. -/
def download_piece (info : TorrentFileInfo) (initiated : Bool) (index : Nat)
    (s : List Nat) :
    Except PeerErr (List PeerMessage × List Nat × Bool × List Nat) :=
  if initiated then
    Except.map (fun x => (x.1, x.2.1, true, x.2.2)) (download_piece_body info index s)
  else dp_step1 info index (receive_message s)

/-- Big-endian 4-byte encoding of a `u32` value, for building message
frames in theorem statements. -/
def be32 (n : Nat) : List Nat :=
  [n / 2 ^ 24 % 256, n / 2 ^ 16 % 256, n / 2 ^ 8 % 256, n % 256]

/-- The block loop at piece length zero is an immediate no-op. -/
theorem download_blocks_zero (index : Nat) (s : List Nat) :
    download_blocks index 0 0 [] [] s = .ok (0, [], [], s) :=
  download_blocks_done index 0 0 [] [] s (by omega)

/-! ## Claims -/

/-- Claim C1 (code bug): the specification's last-piece rule says the final
index gets `total length mod piece length`, or the full piece length if
that remainder is zero, but `nth_plength` computes `length % plength`
unconditionally.  At the failing input — `length = 20`, `plength = 10`,
two 20-byte digests, final index 1 — the code yields `0` where the claim
demands the full piece length `10`; earlier indices do get the full piece
length.  (Downstream, `download_piece` treats a zero `nth_plength` as a
zero-length download, so the final piece of such a torrent is silently
skipped even though `n_pieces` counts it.) -/
theorem nth_plength_zero_remainder_bug :
    (TorrentFileInfo.mk 20 [] 10 (List.replicate 40 0)).nth_plength 1 = 0 ∧
    (TorrentFileInfo.mk 20 [] 10 (List.replicate 40 0)).plength = 10 ∧
    (TorrentFileInfo.mk 20 [] 10 (List.replicate 40 0)).nth_plength 0 = 10 ∧
    (TorrentFileInfo.mk 20 [] 10 (List.replicate 40 0)).n_pieces = 2 := by
  exact ⟨by decide, rfl, by decide, by decide⟩

/-- Claim C2, counterexample: `cexBlob` is a metainfo blob with
`length = 100` and `piece length = 10`, so the claimed validation demands
`ceil(100/10) * 20 = 200` digest bytes — yet its 20-byte `pieces` field
parses successfully, refuting "parsing succeeds only if the digest buffer's
length equals piece_count * 20". -/
theorem parse_accepts_bad_digest_length :
    parse_torrent_file cexBlob = some cexFile ∧
    cexFile.info.pieces_data.length
      ≠ spec_piece_count cexFile.info.length cexFile.info.plength * 20 := by
  exact ⟨by rfl, by decide⟩

/-- Claim C2, amended: parsing performs no digest-buffer length validation at
all.  Field extraction accepts a `pieces` byte string of every length, with
no relation to `ceil(total_length / piece_length)` required, and the piece
count used downstream is `floor(pieces length / 20)`. -/
theorem extract_no_digest_length_check (ann nm piecesB : List Nat) (len plen : Int)
    (hl1 : 0 ≤ len) (hl2 : len < 2 ^ 64) (hp1 : 0 ≤ plen) (hp2 : plen < 2 ^ 64) :
    extract_torrent_file (.dict [(strBytes "announce", .str ann),
        (strBytes "info", .dict [(strBytes "length", .int len),
          (strBytes "name", .str nm), (strBytes "piece length", .int plen),
          (strBytes "pieces", .str piecesB)])])
      = some ⟨ann, ⟨len.toNat, nm, plen.toNat, piecesB⟩⟩ ∧
    (TorrentFileInfo.mk len.toNat nm plen.toNat piecesB).n_pieces
      = piecesB.length / 20 := by
  constructor
  · simp [extract_torrent_file, blookup, strBytes, asUsize, hl1, hp1,
      show len < 18446744073709551616 from by omega,
      show plen < 18446744073709551616 from by omega]
  · rfl

/-- Witness for the amended C2 theorem: a descriptor with `length = 100`,
`piece length = 10` and a single-chunk 20-byte digest buffer extracts
successfully and reports one piece. -/
theorem extract_no_digest_length_check_witness :
    extract_torrent_file (.dict [(strBytes "announce", .str (strBytes "url")),
        (strBytes "info", .dict [(strBytes "length", .int 100),
          (strBytes "name", .str (strBytes "f")),
          (strBytes "piece length", .int 10),
          (strBytes "pieces", .str (List.replicate 20 97))])])
      = some ⟨strBytes "url", ⟨100, strBytes "f", 10, List.replicate 20 97⟩⟩ ∧
    (TorrentFileInfo.mk 100 (strBytes "f") 10 (List.replicate 20 97)).n_pieces = 1 := by
  have h := extract_no_digest_length_check (strBytes "url") (strBytes "f")
    (List.replicate 20 97) 100 10 (by decide) (by decide) (by decide) (by decide)
  exact ⟨h.1, by decide⟩

/-- Claim C3: on a ready connection whose block loop assembled the buffer
`data` (with a nonzero final offset, i.e. a nonzero piece length), with the
descriptor's digest for the index being `expected`: if the SHA-1 digest of
`data` equals `expected`, exactly `data` is written to the sink unmodified;
if the digest differs in any way, the download fails with the integrity
error (`hashMismatch`) and — the error being a panic — nothing is written
to the sink. -/
theorem download_piece_verification (info : TorrentFileInfo) (index : Nat)
    (s : List Nat) (bf : Nat) (sent : List PeerMessage) (data rest expected : List Nat)
    (hblocks : download_blocks index (info.nth_plength index % U32) 0 [] [] s
      = .ok (bf, sent, data, rest))
    (hbf : bf ≠ 0)
    (hpieces : (info.pieces).get? index = some expected) :
    (sha1Bytes data = expected →
      download_piece info true index s = .ok (sent, data, true, rest)) ∧
    (sha1Bytes data ≠ expected →
      download_piece info true index s = .error .hashMismatch) := by
  unfold download_piece download_piece_body
  rw [hblocks]
  simp only [dp_body_post, hpieces, if_neg hbf]
  constructor
  · intro he
    rw [if_pos he]
    rfl
  · intro he
    rw [if_neg he]
    rfl

/-- Witness for C3 at concrete inputs: a one-piece descriptor whose digest
buffer is `sha1Bytes [1,2,3]` accepts the stream delivering block
`[1,2,3]` and writes exactly `[1,2,3]`; the same download against a
descriptor whose digest buffer is 20 zero bytes fails with `hashMismatch`. -/
theorem download_piece_verification_witness :
    download_piece (TorrentFileInfo.mk 3 [] 4 (sha1Bytes [1, 2, 3])) true 0
      [0, 0, 0, 12, 7, 0, 0, 0, 0, 0, 0, 0, 0, 1, 2, 3]
      = .ok ([.request 0 0 3], [1, 2, 3], true, []) ∧
    download_piece (TorrentFileInfo.mk 3 [] 4 (List.replicate 20 0)) true 0
      [0, 0, 0, 12, 7, 0, 0, 0, 0, 0, 0, 0, 0, 1, 2, 3]
      = .error .hashMismatch := by
  have hlen : (sha1Bytes [1, 2, 3]).length = 20 := by decide
  have hnth1 : (TorrentFileInfo.mk 3 [] 4 (sha1Bytes [1, 2, 3])).nth_plength 0 = 3 := by
    simp [TorrentFileInfo.nth_plength, TorrentFileInfo.n_pieces, usizeSub1, USIZE, hlen]
  have hnth2 : (TorrentFileInfo.mk 3 [] 4 (List.replicate 20 0)).nth_plength 0 = 3 := by
    decide
  have hrm : receive_message [0, 0, 0, 12, 7, 0, 0, 0, 0, 0, 0, 0, 0, 1, 2, 3]
      = .ok (.piece 0 0 [1, 2, 3], []) := by
    simp [receive_message, u32be, u32beL]
  have hloop : download_blocks 0 3 0 [] []
      [0, 0, 0, 12, 7, 0, 0, 0, 0, 0, 0, 0, 0, 1, 2, 3]
      = .ok (3, [.request 0 0 3], [1, 2, 3], []) := by
    rw [download_blocks_step_piece 0 3 0 [] [] _ 0 0 [1, 2, 3] [] (by norm_num) hrm]
    norm_num [reqLen, BLOCK_SIZE, U32]
    rw [download_blocks_done _ _ _ _ _ _ (by norm_num)]
  have hb1 : download_blocks 0
      ((TorrentFileInfo.mk 3 [] 4 (sha1Bytes [1, 2, 3])).nth_plength 0 % U32) 0 [] []
      [0, 0, 0, 12, 7, 0, 0, 0, 0, 0, 0, 0, 0, 1, 2, 3]
      = .ok (3, [.request 0 0 3], [1, 2, 3], []) := by
    rw [hnth1, Nat.mod_eq_of_lt (by norm_num [U32])]
    exact hloop
  have hb2 : download_blocks 0
      ((TorrentFileInfo.mk 3 [] 4 (List.replicate 20 0)).nth_plength 0 % U32) 0 [] []
      [0, 0, 0, 12, 7, 0, 0, 0, 0, 0, 0, 0, 0, 1, 2, 3]
      = .ok (3, [.request 0 0 3], [1, 2, 3], []) := by
    rw [hnth2, Nat.mod_eq_of_lt (by norm_num [U32])]
    exact hloop
  have hp1 : ((TorrentFileInfo.mk 3 [] 4 (sha1Bytes [1, 2, 3])).pieces).get? 0
      = some (sha1Bytes [1, 2, 3]) := by decide
  have hp2 : ((TorrentFileInfo.mk 3 [] 4 (List.replicate 20 0)).pieces).get? 0
      = some (List.replicate 20 0) := by decide
  constructor
  · exact (download_piece_verification _ 0 _ 3 [.request 0 0 3] [1, 2, 3] []
      (sha1Bytes [1, 2, 3]) hb1 (by decide) hp1).1 rfl
  · exact (download_piece_verification _ 0 _ 3 [.request 0 0 3] [1, 2, 3] []
      (List.replicate 20 0) hb2 (by decide) hp2).2 (by decide)

/-- Claim C4: the ready-exchange state machine of `download_piece`.
On an already-ready connection the call runs the download body directly —
the exchange is skipped entirely — and the connection stays ready.  On a
fresh connection: a first surfaced message other than `Bitfield` is the
fatal `notBitfield` error; after `Bitfield`, a second surfaced message
other than `Unchoke` is the fatal `notUnchoke` error; after
`Bitfield`/`Unchoke` the call sends `Interested` and proceeds exactly as
the ready body from the remaining stream, leaving the connection ready
(`true`) for its remaining lifetime. -/
theorem download_piece_ready_state_machine :
    (∀ (info : TorrentFileInfo) (index : Nat) (s : List Nat),
        download_piece info true index s
          = Except.map (fun x => (x.1, x.2.1, true, x.2.2))
            (download_piece_body info index s)) ∧
    (∀ (info : TorrentFileInfo) (index : Nat) (s s1 : List Nat) (m : PeerMessage),
        receive_message s = .ok (m, s1) → m ≠ .bitfield →
        download_piece info false index s = .error .notBitfield) ∧
    (∀ (info : TorrentFileInfo) (index : Nat) (s s1 s2 : List Nat) (m2 : PeerMessage),
        receive_message s = .ok (.bitfield, s1) →
        receive_message s1 = .ok (m2, s2) → m2 ≠ .unchoke →
        download_piece info false index s = .error .notUnchoke) ∧
    (∀ (info : TorrentFileInfo) (index : Nat) (s s1 s2 : List Nat),
        receive_message s = .ok (.bitfield, s1) →
        receive_message s1 = .ok (.unchoke, s2) →
        download_piece info false index s
          = Except.map (fun x => (PeerMessage.interested :: x.1, x.2.1, true, x.2.2))
            (download_piece_body info index s2)) := by
  refine ⟨fun info index s => by simp [download_piece], ?_, ?_, ?_⟩
  · intro info index s s1 m hm hne
    cases m
    case bitfield => exact absurd rfl hne
    all_goals simp [download_piece, dp_step1, hm]
  · intro info index s s1 s2 m2 h1 h2 hne
    cases m2
    case unchoke => exact absurd rfl hne
    all_goals simp [download_piece, dp_step1, dp_step2, h1, h2]
  · intro info index s s1 s2 h1 h2
    simp [download_piece, dp_step1, dp_step2, h1, h2]

/-- Witness for C4 at concrete inputs: a fresh connection fed a `Bitfield`
frame then an `Unchoke` frame performs the exchange, sends `Interested`,
and ends ready. -/
theorem download_piece_ready_state_machine_witness :
    download_piece (TorrentFileInfo.mk 6 [] 7 (List.replicate 20 3)) false 9
      [0, 0, 0, 1, 5, 0, 0, 0, 1, 1] = .ok ([.interested], [], true, []) := by
  have h1 : receive_message [0, 0, 0, 1, 5, 0, 0, 0, 1, 1]
      = .ok (.bitfield, [0, 0, 0, 1, 1]) := by
    simp [receive_message, u32be, u32beL]
  have h2 : receive_message [0, 0, 0, 1, 1] = .ok (.unchoke, []) := by
    simp [receive_message, u32be, u32beL]
  rw [download_piece_ready_state_machine.2.2.2 _ 9 _ _ _ h1 h2]
  have hb : download_piece_body (TorrentFileInfo.mk 6 [] 7 (List.replicate 20 3)) 9 []
      = .ok ([], [], []) := by
    unfold download_piece_body
    rw [show (TorrentFileInfo.mk 6 [] 7 (List.replicate 20 3)).nth_plength 9 = 0
      from by decide, Nat.zero_mod, download_blocks_zero]
    rfl
  rw [hb]
  rfl

/-- Claim C5: a zero-length (keepalive) header is consumed transparently and
the read retried, for every continuation of the stream; in particular the
bytes `[0,0,0,0]` followed by a `Bitfield` frame surface exactly the same
result as the `Bitfield` frame alone. -/
theorem keepalive_transparent :
    (∀ s : List Nat, receive_message (0 :: 0 :: 0 :: 0 :: s) = receive_message s) ∧
    receive_message (0 :: 0 :: 0 :: 0 :: [0, 0, 0, 1, 5]) = .ok (.bitfield, []) ∧
    receive_message [0, 0, 0, 1, 5] = .ok (.bitfield, []) := by
  refine ⟨fun s => ?_, by simp [receive_message, u32be, u32beL],
    by simp [receive_message, u32be, u32beL]⟩
  rw [receive_message.eq_def]
  simp [u32be]

/-- Claim C6: a framed message whose id byte is none of the recognized ids
(Bitfield 5, Interested 2, Unchoke 1, Request 6, Piece 7) is read and
discarded, and the receive operation continues with the next message,
rather than failing. -/
theorem unknown_id_skipped (len id : Nat) (payload rest : List Nat)
    (hlen1 : 1 ≤ len) (hlen2 : len < 2 ^ 32) (hp : payload.length = len - 1)
    (h1 : id ≠ 1) (h2 : id ≠ 2) (h5 : id ≠ 5) (h6 : id ≠ 6) (h7 : id ≠ 7) :
    receive_message (be32 len ++ id :: payload ++ rest) = receive_message rest := by
  have hu : u32be (len / 2 ^ 24 % 256) (len / 2 ^ 16 % 256) (len / 2 ^ 8 % 256)
      (len % 256) = len := by
    unfold u32be
    omega
  rw [show be32 len ++ id :: payload ++ rest
      = (len / 2 ^ 24 % 256) :: (len / 2 ^ 16 % 256) :: (len / 2 ^ 8 % 256)
        :: (len % 256) :: id :: (payload ++ rest) from by simp [be32]]
  rw [receive_message.eq_def]
  simp only [hu, if_neg (by omega : ¬len = 0)]
  have hle : len - 1 ≤ (payload ++ rest).length := by
    simp [List.length_append]
    omega
  rw [if_pos hle]
  rw [show len - 1 = payload.length from by omega]
  rw [List.take_left, List.drop_left]
  simp only [if_neg h5, if_neg h2, if_neg h1, if_neg h6, if_neg h7]

/-- Witness for C6 at concrete inputs: a frame with unrecognized id 20 and a
one-byte payload, followed by a `Bitfield` frame, surfaces the `Bitfield`. -/
theorem unknown_id_skipped_witness :
    receive_message [0, 0, 0, 2, 20, 9, 0, 0, 0, 1, 5] = .ok (.bitfield, []) := by
  have h := unknown_id_skipped 2 20 [9] [0, 0, 0, 1, 5] (by decide) (by decide)
    (by decide) (by decide) (by decide) (by decide) (by decide) (by decide)
  simp only [be32] at h
  norm_num at h
  rw [h]
  simp [receive_message, u32be, u32beL]

/-- Claim C7, counterexample: for a descriptor with an empty digest buffer
(piece count 0), index 0 satisfies "index ≥ piece count", yet a
piece-download call on a ready connection is not a no-op: the `n_pieces - 1`
underflow makes `nth_plength` return the full piece length (5 here), so the
loop requests and consumes a block and the call then fails (the
`pieces().nth(0).unwrap()` panic, `noSuchPiece`) instead of returning
without error. -/
theorem zero_piece_descriptor_not_noop :
    (TorrentFileInfo.mk 10 [] 5 []).n_pieces = 0 ∧
    download_piece (TorrentFileInfo.mk 10 [] 5 []) true 0
      [0, 0, 0, 14, 7, 0, 0, 0, 0, 0, 0, 0, 0, 9, 9, 9, 9, 9]
      = .error .noSuchPiece := by
  refine ⟨by decide, ?_⟩
  have hrm : receive_message [0, 0, 0, 14, 7, 0, 0, 0, 0, 0, 0, 0, 0, 9, 9, 9, 9, 9]
      = .ok (.piece 0 0 [9, 9, 9, 9, 9], []) := by
    simp [receive_message, u32be, u32beL]
  have hb : download_blocks 0
      ((TorrentFileInfo.mk 10 [] 5 []).nth_plength 0 % U32) 0 [] []
      [0, 0, 0, 14, 7, 0, 0, 0, 0, 0, 0, 0, 0, 9, 9, 9, 9, 9]
      = .ok (5, [.request 0 0 5], [9, 9, 9, 9, 9], []) := by
    rw [show (TorrentFileInfo.mk 10 [] 5 []).nth_plength 0 % U32 = 5 from by decide]
    rw [download_blocks_step_piece 0 5 0 [] [] _ 0 0 [9, 9, 9, 9, 9] [] (by norm_num) hrm]
    norm_num [reqLen, BLOCK_SIZE, U32]
    rw [download_blocks_done _ _ _ _ _ _ (by norm_num)]
  unfold download_piece download_piece_body
  rw [hb]
  simp [dp_body_post, TorrentFileInfo.pieces, chunksOf20, chunksOf20Go, Except.map]

/-- Claim C7, amended: for every descriptor with at least one piece, a
piece-download call on a ready connection with an index at or beyond the
piece count is a zero-length no-op — it requests no blocks, writes nothing
to the sink, leaves the stream untouched and returns without error. -/
theorem out_of_range_index_noop (info : TorrentFileInfo) (index : Nat) (s : List Nat)
    (h1 : 1 ≤ info.n_pieces) (h2 : info.n_pieces < USIZE)
    (h3 : info.n_pieces ≤ index) :
    download_piece info true index s = .ok ([], [], true, s) := by
  have hn : info.nth_plength index = 0 := by
    have hs : usizeSub1 info.n_pieces = info.n_pieces - 1 := by
      simp only [usizeSub1, USIZE] at *
      omega
    simp only [TorrentFileInfo.nth_plength, hs]
    rw [if_neg (by omega), if_neg (by omega)]
  unfold download_piece download_piece_body
  rw [hn, Nat.zero_mod, download_blocks_zero]
  simp [dp_body_post, Except.map]

/-- Witness for the amended C7 theorem: a one-piece descriptor at index 3 on
an arbitrary concrete stream. -/
theorem out_of_range_index_noop_witness :
    download_piece (TorrentFileInfo.mk 17 [] 10 (List.replicate 20 1)) true 3 [5, 6]
      = .ok ([], [], true, [5, 6]) := by
  exact out_of_range_index_noop (TorrentFileInfo.mk 17 [] 10 (List.replicate 20 1))
    3 [5, 6] (by decide) (by decide) (by decide)

/-- Claim C8, counterexample: `decode` on `"l4:spam4:eggse"` yields the
claimed list but consumes 14 bytes — the input is only 14 characters long —
not the 16 bytes the claim states. -/
theorem decode_list_consumes_fourteen :
    decode_bencoded_value "l4:spam4:eggse".toList
      = some (14, .arr [.str "spam".toList, .str "eggs".toList]) ∧
    "l4:spam4:eggse".toList.length = 14 ∧ (14 : Nat) ≠ 16 := by
  exact ⟨by rfl, by rfl, by decide⟩

/-- Claim C8, amended (the list example's byte count corrected from 16 to
14): `decode` on `"4:spam"` yields the string `"spam"` consuming 6 bytes;
on `"i-42e"` yields the integer `-42` consuming 5 bytes; on
`"l4:spam4:eggse"` yields the list `["spam", "eggs"]` consuming 14 bytes;
on `"d3:cow3:moo4:spam4:eggse"` yields the dictionary
`{cow: "moo", spam: "eggs"}` consuming the full 24 bytes. -/
theorem decode_bencoded_value_examples :
    decode_bencoded_value "4:spam".toList = some (6, .str "spam".toList) ∧
    decode_bencoded_value "i-42e".toList = some (5, .int (-42)) ∧
    decode_bencoded_value "l4:spam4:eggse".toList
      = some (14, .arr [.str "spam".toList, .str "eggs".toList]) ∧
    decode_bencoded_value "d3:cow3:moo4:spam4:eggse".toList
      = some (24, .obj [("cow".toList, .str "moo".toList),
          ("spam".toList, .str "eggs".toList)]) := by
  exact ⟨by rfl, by rfl, by rfl, by rfl⟩

/-- Claim C10: `nth_plength` is only well-defined given at least one piece.
With an empty digest buffer (piece count 0) the expression `n_pieces - 1`
wraps to `2^64 - 1`, so every index below `2^64 - 1` falls into the first
branch and the function returns the full piece length — not `0`, as a
caller might expect of an empty descriptor.  For every descriptor with at
least one piece the subtraction does not wrap. -/
theorem nth_plength_empty_descriptor_underflow :
    (∀ (info : TorrentFileInfo) (n : Nat),
        info.n_pieces = 0 → 0 < info.plength → n < USIZE - 1 →
        info.nth_plength n = info.plength ∧ info.nth_plength n ≠ 0) ∧
    (∀ info : TorrentFileInfo,
        1 ≤ info.n_pieces → info.n_pieces < USIZE →
        usizeSub1 info.n_pieces = info.n_pieces - 1) := by
  constructor
  · intro info n hnp hpl hn
    have hsub : usizeSub1 info.n_pieces = USIZE - 1 := by
      rw [hnp]
      simp [usizeSub1, USIZE]
    have hlt : n < usizeSub1 info.n_pieces := by
      rw [hsub]
      exact hn
    constructor
    · simp only [TorrentFileInfo.nth_plength, if_pos hlt]
    · simp only [TorrentFileInfo.nth_plength, if_pos hlt]
      omega
  · intro info h1 h2
    simp only [usizeSub1, USIZE] at *
    omega

/-- Witness for C10 at concrete inputs: the empty descriptor `⟨10, 7⟩` at
index 3 returns `7 ≠ 0`, and a one-piece descriptor has a wrap-free
`n_pieces - 1 = 0`. -/
theorem nth_plength_empty_descriptor_underflow_witness :
    (TorrentFileInfo.mk 10 [] 7 []).nth_plength 3 = 7 ∧
    usizeSub1 (TorrentFileInfo.mk 10 [] 7 (List.replicate 20 0)).n_pieces = 0 := by
  constructor
  · exact (nth_plength_empty_descriptor_underflow.1
      (TorrentFileInfo.mk 10 [] 7 []) 3 (by decide) (by decide) (by decide)).1
  · exact nth_plength_empty_descriptor_underflow.2
      (TorrentFileInfo.mk 10 [] 7 (List.replicate 20 0)) (by decide) (by decide)
